import Mathlib

/-!
Verification of the n-log logging pipeline (nivinjoseph/n-log).

The definitions below are a shallow embedding of the TypeScript source:

- src/src/base-logger.ts: the trace context converter (fromString,
  toNumberString, writeUInt32BE, readInt32), getErrorMessage, and the
  environment resolution default;
- src/src/file-logger.ts: constructor validation, the locked write path,
  logDebug gating, and the purge policy;
- src/unnamed/part_005 (the slack logger): message buffering, the atomic
  batch swap in flushMessages, and the fallback replay in postMessages.

JS numbers on the verified paths hold exact integer values well below 2 to
the 53rd power, so they are embedded as Nat; the bitwise operators apply the
ToInt32 conversion, embedded explicitly on Int with wrap-around modulo 2 to
the 32nd power.
-/

namespace NLog

/-- Result of the JS abstract operation ToInt32 applied to an integer-valued
number, as performed by the bitwise operators in base-logger.ts: wrap modulo
4294967296 into the signed 32-bit range. -/
def toInt32 (x : Int) : Int :=
  if x % 4294967296 < 2147483648 then x % 4294967296
  else x % 4294967296 - 4294967296

/-- Embedding of the JS expression (value & 255) from writeUInt32BE: both
operands go through ToInt32 and the low eight bits are kept. -/
def jsAnd255 (x : Int) : Int := toInt32 x % 256

/-- Embedding of the JS expression (value >> 8) from writeUInt32BE: ToInt32
followed by an arithmetic shift, which is floor division by 256. -/
def jsShr8 (x : Int) : Int := toInt32 x / 256

/-- Embedding of BaseLogger._writeUInt32BE: writes a 32-bit value as four
big-endian bytes; the source mutates value by (value = value >> 8) between
the four byte extractions, inlined here as nested applications. -/
def writeUInt32BE (value : Int) : List Nat :=
  [(jsAnd255 (jsShr8 (jsShr8 (jsShr8 value)))).toNat,
   (jsAnd255 (jsShr8 (jsShr8 value))).toNat,
   (jsAnd255 (jsShr8 value)).toNat,
   (jsAnd255 value).toNat]

/-- Embedding of BaseLogger._readInt32: buffer[o] * 16777216 plus the three
lower bytes shifted left by 16, 8 and 0 bits; on byte values the shifts are
exact multiplications. Out-of-range reads yield 0 (they never occur on the
8-byte buffers produced by fromString). -/
def readInt32 (buffer : List Nat) (offset : Nat) : Nat :=
  buffer.getD offset 0 * 16777216 + buffer.getD (offset + 1) 0 * 65536 +
    buffer.getD (offset + 2) 0 * 256 + buffer.getD (offset + 3) 0

/-- Digit value of a character as JS parseInt sees single characters: 0-9 for
digits, 10 and up for letters of either case, none otherwise. -/
def charDigitValue (c : Char) : Option Nat :=
  if '0' ≤ c ∧ c ≤ '9' then some (c.toNat - '0'.toNat)
  else if 'a' ≤ c ∧ c ≤ 'z' then some (c.toNat - 'a'.toNat + 10)
  else if 'A' ≤ c ∧ c ≤ 'Z' then some (c.toNat - 'A'.toNat + 10)
  else none

/-- Embedding of parseInt(str[pos], raddix) on a single character: the digit
value when valid for the radix, otherwise none (NaN in the source). -/
def parseIntDigit (radix : Nat) (c : Char) : Option Nat :=
  match charDigitValue c with
  | some v => if v < radix then some v else none
  | none => none

/-- Embedding of the digit loop of BaseLogger._fromString: low = low * raddix
+ chr; high = high * raddix + floor(low / 4294967296); low = low mod
4294967296; the loop breaks at the first character that is not a valid
digit. -/
def fromStringLoop (radix : Nat) : List Char → Nat → Nat → Nat × Nat
  | [], high, low => (high, low)
  | c :: rest, high, low =>
    match parseIntDigit radix c with
    | none => (high, low)
    | some chr =>
      fromStringLoop radix rest (high * radix + (low * radix + chr) / 4294967296)
        ((low * radix + chr) % 4294967296)

/-- Embedding of BaseLogger._fromString: an optional leading minus sign, the
digit loop, a two's complement negation when signed (high = ~high, then
either low = 4294967296 - low or high++), and the 8-byte big-endian buffer
written from the high and low halves. -/
def fromString (str : List Char) (radix : Nat) : List Nat :=
  let hl := fromStringLoop radix (if str.head? = some '-' then str.tail else str) 0 0
  if str.head? = some '-' then
    if hl.2 ≠ 0 then
      writeUInt32BE (-(toInt32 (hl.1 : Int)) - 1) ++
        writeUInt32BE (4294967296 - (hl.2 : Int))
    else
      writeUInt32BE (-(toInt32 (hl.1 : Int)) - 1 + 1) ++ writeUInt32BE ((hl.2 : Int))
  else
    writeUInt32BE ((hl.1 : Int)) ++ writeUInt32BE ((hl.2 : Int))

/-- Embedding of the division loop of BaseLogger._toNumberString at the
default radix 10 (the call sites in injectTrace pass no radix): mod = (high
mod 10) * 4294967296 + low; high = floor(high / 10); low = floor(mod / 10);
prepend the digit mod mod 10; the source loop is do-while shaped, so the
value zero still yields the single digit 0. -/
def toNumberStringLoop (high low : Nat) : List Char :=
  if high / 10 = 0 ∧ (high % 10 * 4294967296 + low) / 10 = 0 then
    [Nat.digitChar ((high % 10 * 4294967296 + low) % 10)]
  else
    toNumberStringLoop (high / 10) ((high % 10 * 4294967296 + low) / 10) ++
      [Nat.digitChar ((high % 10 * 4294967296 + low) % 10)]
termination_by high * 4294967296 + low
decreasing_by omega

/-- Embedding of BaseLogger._toNumberString at radix 10: read the high half at
offset 0 and the low half at offset 4, then run the division loop. -/
def toNumberString (buffer : List Nat) : List Char :=
  toNumberStringLoop (readInt32 buffer 0) (readInt32 buffer 4)

/-- Mathematical value of a hexadecimal digit string read big-endian. -/
def hexValue (cs : List Char) : Nat :=
  cs.foldl (fun a c => 16 * a + (parseIntDigit 16 c).getD 0) 0

/-- Mathematically correct unsigned decimal representation of a natural
number: most significant digit first, no leading zeros, except that zero
itself is the single digit 0. -/
def decRep (n : Nat) : List Char :=
  (if n = 0 then [0] else (Nat.digits 10 n).reverse).map Nat.digitChar

/-- Well-formed hexadecimal string: every character is a valid base-16
digit. -/
def WellFormedHex (cs : List Char) : Prop :=
  ∀ c ∈ cs, (parseIntDigit 16 c).isSome

/-- Embedding of the LogRecord shape shared by every sink (log-record.ts). -/
structure LogRecord where
  source : String
  service : String
  env : String
  level : String
  message : String
  dateTime : String
  time : String
deriving DecidableEq

/-- Embedding of the slack SlackMessage type: a LogRecord plus the color
accent attached per level. -/
structure SlackMessage extends LogRecord where
  color : String
deriving DecidableEq

/-- Embedding of the env resolution in BaseLogger: the configured env string
lower-cased, defaulting to the literal dev when no environment is
configured. -/
def resolveEnv (configured : Option String) : String :=
  match configured with
  | some s => s.toLower
  | none => "dev"

/-- Classification of the value passed to getErrorMessage, following the
instanceof chain in the source: a structured application Exception, a generic
JS Error, or any other value; rendering the value (toString or stack access)
may itself throw, embedded as an Except per branch. -/
inductive ErrorInput where
  | exception (render : Except String String)
  | jsError (render : Except String String)
  | other (render : Except String String)

/-- Rendering outcome of an ErrorInput: the branch the instanceof chain
selects, with its possibly-throwing rendering. -/
def renderOf : ErrorInput → Except String String
  | ErrorInput.exception r => r
  | ErrorInput.jsError r => r
  | ErrorInput.other r => r

/-- Result of getErrorMessage: the extracted message and the warnings emitted
to the console side channel. -/
structure ErrorMessageResult where
  message : String
  warnings : List String
deriving DecidableEq

/-- Embedding of BaseLogger.getErrorMessage: render the input according to its
kind; when rendering throws, the thrown value is caught, forwarded to the
console warning side channel, and the fixed fallback message is returned; the
function is total, so no exception ever escapes it. -/
def getErrorMessage (exp : ErrorInput) : ErrorMessageResult :=
  match renderOf exp with
  | Except.ok s => { message := s, warnings := [] }
  | Except.error e =>
    { message := "There was an error while attempting to log another error. Check earlier logs for a warning.",
      warnings := [e] }

/-- State of the slack batching machinery: the in-memory batch and the batches
handed to postMessages so far. -/
structure SlackBatchState where
  messages : List SlackMessage
  posted : List (List SlackMessage)
deriving DecidableEq

/-- Embedding of SlackLogger._flushMessages: return when the batch is empty,
otherwise swap the batch for a fresh empty array before the outbound call and
hand the swapped batch to postMessages. -/
def flushMessages (s : SlackBatchState) : SlackBatchState :=
  if s.messages = [] then s
  else { messages := [], posted := s.posted ++ [s.messages] }

/-- One interleaving step against the slack batch: a logging call appends one
buffered event (the push ending each log operation), or the timer fires a
flush. -/
inductive SlackOp where
  | append (m : SlackMessage)
  | flush

/-- Effect of one operation on the batch state. -/
def slackStep (s : SlackBatchState) : SlackOp → SlackBatchState
  | SlackOp.append m => { s with messages := s.messages ++ [m] }
  | SlackOp.flush => flushMessages s

/-- Run a sequence of interleaved appends and flushes. -/
def slackRun (s : SlackBatchState) (ops : List SlackOp) : SlackBatchState :=
  ops.foldl slackStep s

/-- Events appended by a sequence of operations, in order. -/
def appendedOf : List SlackOp → List SlackMessage
  | [] => []
  | SlackOp.append m :: ops => m :: appendedOf ops
  | SlackOp.flush :: ops => appendedOf ops

/-- One call made on the fallback logger during failure handling. -/
inductive FallbackCall where
  | debugCall (m : String)
  | infoCall (m : String)
  | warnCall (m : String)
  | errorCall (m : String)
deriving DecidableEq

/-- Embedding of the per-event switch in the catch branch of
SlackLogger._postMessages: each buffered event is replayed through the
fallback operation selected by its level string. -/
def replayDispatch (log : SlackMessage) : FallbackCall :=
  match log.level with
  | "Debug" => FallbackCall.debugCall log.message
  | "Info" => FallbackCall.infoCall log.message
  | "Warn" => FallbackCall.warnCall log.message
  | "Error" => FallbackCall.errorCall log.message
  | _ => FallbackCall.errorCall log.message

/-- Embedding of the sequential replay loop (forEachAsync with degree 1) in
the catch branch of SlackLogger._postMessages. -/
def replayLoop : List SlackMessage → List FallbackCall
  | [] => []
  | log :: rest => replayDispatch log :: replayLoop rest

/-- Embedding of the failure path of SlackLogger._postMessages when a
fallback logger is configured: a warning, the delivery error, a second
warning, then the sequential replay of every buffered event. -/
def postMessagesOnFailure (deliveryError : String)
    (messages : List SlackMessage) : List FallbackCall :=
  FallbackCall.warnCall "Error while posting to slack." ::
    FallbackCall.errorCall deliveryError ::
      FallbackCall.warnCall "Original messages below" :: replayLoop messages

/-- Embedding of the LogPrefix enum (log-prefix.ts). -/
inductive LogStatus where
  | debug
  | info
  | warning
  | error
deriving DecidableEq

/-- Plain-text prefixes carried by the LogPrefix enum values. -/
def statusText : LogStatus → String
  | LogStatus.debug => "APP DEBUG:"
  | LogStatus.info => "APP INFO:"
  | LogStatus.warning => "APP WARNING:"
  | LogStatus.error => "APP ERROR:"

/-- Level names assigned by the switch in FileLogger._writeToLog. -/
def levelName : LogStatus → String
  | LogStatus.debug => "Debug"
  | LogStatus.info => "Info"
  | LogStatus.warning => "Warn"
  | LogStatus.error => "Error"

/-- One line of a log file: one JSON-encoded record (JSON mode) or the plain
prefixed text line. -/
inductive LogLine where
  | jsonLine (r : LogRecord)
  | plainLine (s : String)
deriving DecidableEq

/-- Configuration and identity of a file logger, resolved at construction
(the BaseLogger fields relevant to the write path). -/
structure FileLoggerModel where
  source : String
  service : String
  env : String
  useJsonFormat : Bool
  logInjector : Option (LogRecord → LogRecord)

/-- Embedding of the formatting half of FileLogger._writeToLog: in JSON mode
build the record, inject the trace context (no active span is modeled, so a
no-op), apply the logInjector when configured, and emit the record as the
line; otherwise emit the plain prefixed line. -/
def formatLine (cfg : FileLoggerModel) (status : LogStatus) (message : String)
    (dateTime time : String) : LogLine :=
  if cfg.useJsonFormat then
    LogLine.jsonLine
      (match cfg.logInjector with
       | some f => f { source := cfg.source, service := cfg.service,
                       env := cfg.env, level := levelName status,
                       message := message, dateTime := dateTime, time := time }
       | none => { source := cfg.source, service := cfg.service,
                   env := cfg.env, level := levelName status,
                   message := message, dateTime := dateTime, time := time })
  else
    LogLine.plainLine (dateTime ++ " " ++ statusText status ++ " " ++ message)

/-- Name of the hourly log file: the first 13 characters of the formatted
timestamp (year, month, day, then the hour) with the log extension. -/
def logFileName (dateTime : String) : String := dateTime.take 13 ++ ".log"

/-- Filesystem and console state seen by the locked write path. -/
structure FileSinkState where
  lockHeld : Bool
  files : List (String × List LogLine)
  consoleErrors : List String
deriving DecidableEq

/-- Append one line to one named file (the newline-prefixed append of the
source), creating the file on first append. -/
def appendLine : List (String × List LogLine) → String → LogLine →
    List (String × List LogLine)
  | [], name, line => [(name, [line])]
  | (n, ls) :: rest, name, line =>
    if n = name then (n, ls ++ [line]) :: rest
    else (n, ls) :: appendLine rest name line

/-- Embedding of the locked section of FileLogger._writeToLog: take the
mutex, try the file append followed by the purge check, catch any failure by
logging it to the console error side channel, and release the mutex in the
finally block on every exit path; the possibly-failing append and purge
outcomes are parameters because disk behavior is external. -/
def writeToLogLocked (st : FileSinkState) (fileName : String) (line : LogLine)
    (appendOutcome purgeOutcome : Except String Unit) : FileSinkState :=
  let locked : FileSinkState := { st with lockHeld := true }
  let afterTry : FileSinkState :=
    match appendOutcome with
    | Except.error e => { locked with consoleErrors := locked.consoleErrors ++ [e] }
    | Except.ok _ =>
      let appended : FileSinkState :=
        { locked with files := appendLine locked.files fileName line }
      match purgeOutcome with
      | Except.error e =>
        { appended with consoleErrors := appended.consoleErrors ++ [e] }
      | Except.ok _ => appended
  { afterTry with lockHeld := false }

/-- Embedding of FileLogger.logDebug: write only when env is dev. -/
def fileLogDebug (cfg : FileLoggerModel) (debug : String)
    (dateTime time : String) (st : FileSinkState)
    (appendOutcome purgeOutcome : Except String Unit) : FileSinkState :=
  if cfg.env = "dev" then
    writeToLogLocked st (logFileName dateTime)
      (formatLine cfg LogStatus.debug debug dateTime time)
      appendOutcome purgeOutcome
  else st

/-- Total number of lines across all files of the sink state. -/
def totalLines (st : FileSinkState) : Nat :=
  (st.files.map (fun f => f.2.length)).sum

/-- Configuration and identity of a slack logger after construction. The
SlackLoggerConfig type admits no useJsonFormat field, so BaseLogger always
resolves useJsonFormat to false for this sink; the field is still recorded
here so claims about it can be stated. -/
structure SlackLoggerModel where
  source : String
  service : String
  env : String
  useJsonFormat : Bool
  includeInfo : Bool
  includeWarn : Bool
  includeError : Bool
  logFilter : LogRecord → Bool
  logInjector : Option (SlackMessage → SlackMessage)

/-- Embedding of SlackLogger.logDebug: only when env is dev, build the
white-accent event, apply the logInjector when configured, and push it onto
the batch; no level allow-list or record filter applies to debug. -/
def slackLogDebug (cfg : SlackLoggerModel) (debug : String)
    (dateTime time : String) (messages : List SlackMessage) :
    List SlackMessage :=
  if cfg.env = "dev" then
    messages ++
      [(match cfg.logInjector with
        | some f => f { source := cfg.source, service := cfg.service,
                        env := cfg.env, level := "Debug", message := debug,
                        dateTime := dateTime, time := time, color := "#F8F8F8" }
        | none => { source := cfg.source, service := cfg.service,
                    env := cfg.env, level := "Debug", message := debug,
                    dateTime := dateTime, time := time, color := "#F8F8F8" })]
  else messages

/-- Embedding of SlackLogger.logInfo: return early unless Info is in the
level allow-list, build the green-accent event, return early unless the
record filter passes, apply the logInjector when configured, and push the
event onto the batch. -/
def slackLogInfo (cfg : SlackLoggerModel) (info : String)
    (dateTime time : String) (messages : List SlackMessage) :
    List SlackMessage :=
  if cfg.includeInfo = false then messages
  else
    let log : SlackMessage :=
      { source := cfg.source, service := cfg.service, env := cfg.env,
        level := "Info", message := info, dateTime := dateTime, time := time,
        color := "#259D2F" }
    if cfg.logFilter log.toLogRecord = false then messages
    else
      messages ++
        [(match cfg.logInjector with
          | some f => f log
          | none => log)]

/-- Embedding of SlackLogger.logWarning: return early unless Warn is in the
level allow-list, build the yellow-accent event with the extracted error
message, return early unless the record filter passes, apply the logInjector
when configured, and push the event onto the batch. -/
def slackLogWarning (cfg : SlackLoggerModel) (warning : ErrorInput)
    (dateTime time : String) (messages : List SlackMessage) :
    List SlackMessage :=
  if cfg.includeWarn = false then messages
  else
    let log : SlackMessage :=
      { source := cfg.source, service := cfg.service, env := cfg.env,
        level := "Warn", message := (getErrorMessage warning).message,
        dateTime := dateTime, time := time, color := "#F1AB2A" }
    if cfg.logFilter log.toLogRecord = false then messages
    else
      messages ++
        [(match cfg.logInjector with
          | some f => f log
          | none => log)]

/-- Embedding of SlackLogger.logError: return early unless Error is in the
level allow-list, build the red-accent event with the extracted error
message, return early unless the record filter passes, apply the logInjector
when configured, and push the event onto the batch. -/
def slackLogError (cfg : SlackLoggerModel) (error : ErrorInput)
    (dateTime time : String) (messages : List SlackMessage) :
    List SlackMessage :=
  if cfg.includeError = false then messages
  else
    let log : SlackMessage :=
      { source := cfg.source, service := cfg.service, env := cfg.env,
        level := "Error", message := (getErrorMessage error).message,
        dateTime := dateTime, time := time, color := "#EF401D" }
    if cfg.logFilter log.toLogRecord = false then messages
    else
      messages ++
        [(match cfg.logInjector with
          | some f => f log
          | none => log)]

/-- Configuration and identity of a console logger, resolved at construction
(the BaseLogger fields relevant to its write path). -/
structure ConsoleLoggerModel where
  source : String
  service : String
  env : String
  useJsonFormat : Bool
  logInjector : Option (LogRecord → LogRecord)

/-- Embedding of ConsoleLogger.logDebug: write only when env is dev; in JSON
mode build the record, inject the trace context (no active span modeled, a
no-op), apply the logInjector when configured, and write the record as the
output unit; otherwise write the plain prefixed line (the chalk coloring and
the trailing newline are formatting and are elided). -/
def consoleLogDebug (cfg : ConsoleLoggerModel) (debug : String)
    (dateTime time : String) : Option LogLine :=
  if cfg.env = "dev" then
    some
      (if cfg.useJsonFormat then
        LogLine.jsonLine
          (match cfg.logInjector with
           | some f => f { source := cfg.source, service := cfg.service,
                           env := cfg.env, level := "Debug", message := debug,
                           dateTime := dateTime, time := time }
           | none => { source := cfg.source, service := cfg.service,
                       env := cfg.env, level := "Debug", message := debug,
                       dateTime := dateTime, time := time })
      else
        LogLine.plainLine
          (dateTime ++ " " ++ statusText LogStatus.debug ++ " " ++ debug))
  else none

/-- Embedding of ConsoleLogger.logInfo: in JSON mode build the record, inject
the trace context, apply the logInjector when configured, and write the
record; otherwise write the plain prefixed line (coloring elided). -/
def consoleLogInfo (cfg : ConsoleLoggerModel) (info : String)
    (dateTime time : String) : LogLine :=
  if cfg.useJsonFormat then
    LogLine.jsonLine
      (match cfg.logInjector with
       | some f => f { source := cfg.source, service := cfg.service,
                       env := cfg.env, level := "Info", message := info,
                       dateTime := dateTime, time := time }
       | none => { source := cfg.source, service := cfg.service,
                   env := cfg.env, level := "Info", message := info,
                   dateTime := dateTime, time := time })
  else
    LogLine.plainLine
      (dateTime ++ " " ++ statusText LogStatus.info ++ " " ++ info)

/-- Embedding of ConsoleLogger.logWarning: like logInfo but at level Warn and
with the message extracted through getErrorMessage. -/
def consoleLogWarning (cfg : ConsoleLoggerModel) (warning : ErrorInput)
    (dateTime time : String) : LogLine :=
  if cfg.useJsonFormat then
    LogLine.jsonLine
      (match cfg.logInjector with
       | some f => f { source := cfg.source, service := cfg.service,
                       env := cfg.env, level := "Warn",
                       message := (getErrorMessage warning).message,
                       dateTime := dateTime, time := time }
       | none => { source := cfg.source, service := cfg.service,
                   env := cfg.env, level := "Warn",
                   message := (getErrorMessage warning).message,
                   dateTime := dateTime, time := time })
  else
    LogLine.plainLine
      (dateTime ++ " " ++ statusText LogStatus.warning ++ " " ++
        (getErrorMessage warning).message)

/-- Embedding of ConsoleLogger.logError: like logWarning but at level Error
(and, in the source, with the span marked as errored). -/
def consoleLogError (cfg : ConsoleLoggerModel) (error : ErrorInput)
    (dateTime time : String) : LogLine :=
  if cfg.useJsonFormat then
    LogLine.jsonLine
      (match cfg.logInjector with
       | some f => f { source := cfg.source, service := cfg.service,
                       env := cfg.env, level := "Error",
                       message := (getErrorMessage error).message,
                       dateTime := dateTime, time := time }
       | none => { source := cfg.source, service := cfg.service,
                   env := cfg.env, level := "Error",
                   message := (getErrorMessage error).message,
                   dateTime := dateTime, time := time })
  else
    LogLine.plainLine
      (dateTime ++ " " ++ statusText LogStatus.error ++ " " ++
        (getErrorMessage error).message)

/-- A concrete Warn-level buffered event used as a probe input. -/
def warnProbeMessage : SlackMessage :=
  { source := "nodejs", service := "svc", env := "dev", level := "Warn",
    message := "w1", dateTime := "d", time := "t", color := "#F1AB2A" }

/-- A slack logger configuration with an injector that marks the message,
used to exhibit injector application while JSON mode is off. -/
def slackInjectorProbe : SlackLoggerModel :=
  { source := "nodejs", service := "svc", env := "prod", useJsonFormat := false,
    includeInfo := true, includeWarn := true, includeError := true,
    logFilter := fun _ => true,
    logInjector := some (fun m => { m with message := m.message ++ "!" }) }

/-- State of the purge machinery: the last purge instant (0 when no purge ran
yet) and the directory entries with their creation instants, in epoch
milliseconds. -/
structure PurgeState where
  lastPurgedAt : Int
  files : List (String × Int)
deriving DecidableEq

/-- Milliseconds of the retention window (Duration.fromDays). -/
def retentionMs (retentionDays : Int) : Int := retentionDays * 86400000

/-- Embedding of FileLogger._purgeLogs: skip when a purge already ran within
the retention window (lastPurgedAt truthy and newer than now minus the
window); otherwise delete every file whose creation time is older than now
minus the window and stamp lastPurgedAt with now. -/
def purgeLogs (retentionDays : Int) (now : Int) (st : PurgeState) : PurgeState :=
  if st.lastPurgedAt ≠ 0 ∧ st.lastPurgedAt > now - retentionMs retentionDays then st
  else
    { lastPurgedAt := now,
      files := st.files.filter
        (fun f => decide (¬f.2 < now - retentionMs retentionDays)) }

theorem toInt32_eq_self (x : Int) (h1 : -2147483648 ≤ x) (h2 : x < 2147483648) :
    toInt32 x = x := by
  unfold toInt32
  split <;> omega

theorem writeUInt32BE_spec (v : Nat) (h : v < 4294967296) :
    writeUInt32BE (v : Int) =
      [v / 16777216 % 256, v / 65536 % 256, v / 256 % 256, v % 256] := by
  unfold writeUInt32BE jsAnd255 jsShr8 toInt32
  simp only [List.cons.injEq, and_true]
  refine ⟨?_, ?_, ?_, ?_⟩ <;> (split_ifs <;> omega)

theorem readInt32_pair (x y : Nat) (hx : x < 4294967296) (hy : y < 4294967296) :
    readInt32 ([x / 16777216 % 256, x / 65536 % 256, x / 256 % 256, x % 256] ++
      [y / 16777216 % 256, y / 65536 % 256, y / 256 % 256, y % 256]) 0 = x ∧
    readInt32 ([x / 16777216 % 256, x / 65536 % 256, x / 256 % 256, x % 256] ++
      [y / 16777216 % 256, y / 65536 % 256, y / 256 % 256, y % 256]) 4 = y := by
  have h0 : readInt32 ([x / 16777216 % 256, x / 65536 % 256, x / 256 % 256, x % 256] ++
      [y / 16777216 % 256, y / 65536 % 256, y / 256 % 256, y % 256]) 0 =
      x / 16777216 % 256 * 16777216 + x / 65536 % 256 * 65536 +
        x / 256 % 256 * 256 + x % 256 := rfl
  have h4 : readInt32 ([x / 16777216 % 256, x / 65536 % 256, x / 256 % 256, x % 256] ++
      [y / 16777216 % 256, y / 65536 % 256, y / 256 % 256, y % 256]) 4 =
      y / 16777216 % 256 * 16777216 + y / 65536 % 256 * 65536 +
        y / 256 % 256 * 256 + y % 256 := rfl
  rw [h0, h4]
  constructor <;> omega

theorem parseIntDigit_getD_lt (c : Char) : (parseIntDigit 16 c).getD 0 < 16 := by
  unfold parseIntDigit
  cases charDigitValue c with
  | none => simp
  | some v =>
    simp only
    split <;> simp_all

theorem fromStringLoop_spec : ∀ (cs : List Char) (high low : Nat),
    (∀ c ∈ cs, (parseIntDigit 16 c).isSome) → low < 4294967296 →
    fromStringLoop 16 cs high low =
      ((cs.foldl (fun a c => 16 * a + (parseIntDigit 16 c).getD 0)
          (high * 4294967296 + low)) / 4294967296,
       (cs.foldl (fun a c => 16 * a + (parseIntDigit 16 c).getD 0)
          (high * 4294967296 + low)) % 4294967296) := by
  intro cs
  induction cs with
  | nil =>
    intro high low _ hlow
    simp only [fromStringLoop, List.foldl_nil, Prod.mk.injEq]
    constructor <;> omega
  | cons c rest ih =>
    intro high low hd hlow
    have hc : (parseIntDigit 16 c).isSome := hd c (by simp)
    obtain ⟨d, hdc⟩ := Option.isSome_iff_exists.mp hc
    rw [List.foldl_cons]
    simp only [fromStringLoop, hdc]
    rw [ih _ _ (fun x hx => hd x (by simp [hx])) (by omega)]
    have harg : (high * 16 + (low * 16 + d) / 4294967296) * 4294967296 +
        (low * 16 + d) % 4294967296 = 16 * (high * 4294967296 + low) + d := by
      omega
    rw [harg]
    simp

theorem hexValue_foldl_lt : ∀ (cs : List Char) (a : Nat),
    cs.foldl (fun a c => 16 * a + (parseIntDigit 16 c).getD 0) a <
      (a + 1) * 16 ^ cs.length := by
  intro cs
  induction cs with
  | nil => intro a; simp
  | cons c rest ih =>
    intro a
    rw [List.foldl_cons]
    have hstep := ih (16 * a + (parseIntDigit 16 c).getD 0)
    have hdlt := parseIntDigit_getD_lt c
    have hle : 16 * a + (parseIntDigit 16 c).getD 0 + 1 ≤ 16 * (a + 1) := by omega
    calc rest.foldl (fun a c => 16 * a + (parseIntDigit 16 c).getD 0)
          (16 * a + (parseIntDigit 16 c).getD 0)
        < (16 * a + (parseIntDigit 16 c).getD 0 + 1) * 16 ^ rest.length := hstep
      _ ≤ 16 * (a + 1) * 16 ^ rest.length :=
          Nat.mul_le_mul_right _ hle
      _ = (a + 1) * 16 ^ (rest.length + 1) := by ring
      _ = (a + 1) * 16 ^ (c :: rest).length := by simp

theorem toNumberStringLoop_spec (v : Nat) : ∀ high low : Nat,
    high * 4294967296 + low = v → toNumberStringLoop high low = decRep v := by
  induction v using Nat.strong_induction_on with
  | _ v ih =>
    intro high low hv
    rw [toNumberStringLoop]
    split
    · rename_i hguard
      obtain ⟨hh, hl⟩ := hguard
      have hmd : (high % 10 * 4294967296 + low) % 10 = v % 10 := by omega
      rw [hmd]
      by_cases h0 : v = 0
      · subst h0
        simp [decRep]
      · have hv10 : v < 10 := by omega
        have hdig : Nat.digits 10 v = [v % 10] := by
          rw [Nat.digits_def' (by norm_num : (1 : ℕ) < 10) (Nat.pos_of_ne_zero h0)]
          have hq : v / 10 = 0 := by omega
          rw [hq, Nat.digits_zero]
        simp [decRep, h0, hdig]
    · rename_i hguard
      have hvge : 10 ≤ v := by omega
      have h1 : high / 10 * 4294967296 + (high % 10 * 4294967296 + low) / 10
          = v / 10 := by omega
      have h2 : v / 10 < v := by omega
      rw [ih (v / 10) h2 _ _ h1]
      have hmd : (high % 10 * 4294967296 + low) % 10 = v % 10 := by omega
      rw [hmd]
      have hv0 : v ≠ 0 := by omega
      have hq0 : v / 10 ≠ 0 := by omega
      simp only [decRep, if_neg hv0, if_neg hq0]
      rw [Nat.digits_def' (by norm_num : (1 : ℕ) < 10) (Nat.pos_of_ne_zero hv0)]
      simp

/-- Claim C1: for every well-formed hexadecimal string of length at most 16,
converting it with fromString at radix 16 and rendering the resulting 8-byte
buffer with toNumberString at radix 10 yields exactly the mathematically
correct unsigned decimal representation of its value (which fits in 64 bits),
with no leading zeros except for the single digit 0 on the value zero. -/
theorem hex_to_decimal_exact (cs : List Char) (hwf : WellFormedHex cs)
    (hlen : cs.length ≤ 16) :
    toNumberString (fromString cs 16) = decRep (hexValue cs) := by
  have hsign : ¬cs.head? = some '-' := by
    cases cs with
    | nil => simp
    | cons c rest =>
      have hc := hwf c (by simp)
      intro hcon
      simp only [List.head?_cons, Option.some.injEq] at hcon
      rw [hcon] at hc
      have hminus : parseIntDigit 16 '-' = none := by decide
      rw [hminus] at hc
      simp at hc
  have hloop := fromStringLoop_spec cs 0 0 hwf (by norm_num)
  have hfold : cs.foldl (fun a c => 16 * a + (parseIntDigit 16 c).getD 0)
      (0 * 4294967296 + 0) = hexValue cs := by
    simp [hexValue]
  rw [hfold] at hloop
  have hbound : hexValue cs < 4294967296 * 4294967296 := by
    have h1 := hexValue_foldl_lt cs 0
    have h2 : 16 ^ cs.length ≤ 16 ^ 16 := Nat.pow_le_pow_right (by norm_num) hlen
    have h3 : (16 : ℕ) ^ 16 = 4294967296 * 4294967296 := by norm_num
    calc hexValue cs < (0 + 1) * 16 ^ cs.length := h1
      _ = 16 ^ cs.length := by ring
      _ ≤ 16 ^ 16 := h2
      _ = 4294967296 * 4294967296 := h3
  have hhi : hexValue cs / 4294967296 < 4294967296 := by omega
  have hlo : hexValue cs % 4294967296 < 4294967296 := by omega
  simp only [fromString, if_neg hsign, hloop]
  rw [toNumberString, writeUInt32BE_spec _ hhi, writeUInt32BE_spec _ hlo]
  obtain ⟨hr0, hr4⟩ := readInt32_pair _ _ hhi hlo
  rw [hr0, hr4]
  exact toNumberStringLoop_spec (hexValue cs) _ _ (by omega)

/-- Witness for claim C1 at the concrete hexadecimal input 1a (value 26). -/
theorem hex_to_decimal_exact_witness :
    toNumberString (fromString ['1', 'a'] 16) = decRep 26 := by
  have h := hex_to_decimal_exact ['1', 'a'] (by unfold WellFormedHex; decide) (by decide)
  have hv : hexValue ['1', 'a'] = 26 := by decide
  rw [hv] at h
  exact h

theorem slackRun_partition (ops : List SlackOp) : ∀ s : SlackBatchState,
    ((slackRun s ops).posted).flatten ++ (slackRun s ops).messages =
      s.posted.flatten ++ s.messages ++ appendedOf ops := by
  induction ops with
  | nil => intro s; simp [slackRun, appendedOf]
  | cons op ops ih =>
    intro s
    cases op with
    | append m =>
      have h := ih { s with messages := s.messages ++ [m] }
      simp only [slackRun, List.foldl_cons, slackStep] at h ⊢
      rw [h]
      simp [appendedOf]
    | flush =>
      have h := ih (flushMessages s)
      simp only [slackRun, List.foldl_cons, slackStep] at h ⊢
      rw [h]
      unfold flushMessages
      split
      · rename_i he
        simp [appendedOf, he]
      · simp [appendedOf, List.flatten_append]

/-- Claim C2: across any interleaving of buffering calls and flushes starting
from the fresh sink, the flush-time atomic batch swap partitions the appended
events exactly into the delivered batches followed by the still-buffered
events: every appended event reaches exactly one outbound postMessages call
(or still awaits the next flush), never duplicated and never dropped, and
the order within and across batches is the append order. -/
theorem batch_swap_exactly_once (ops : List SlackOp) :
    ((slackRun { messages := [], posted := [] } ops).posted).flatten ++
      (slackRun { messages := [], posted := [] } ops).messages = appendedOf ops := by
  have h := slackRun_partition ops { messages := [], posted := [] }
  simpa using h

/-- Claim C3: when delivery fails with a fallback configured, the fallback
receives the two framing warnings (with the delivery error logged between
them) followed by every buffered event exactly once, sequentially, in
original append order, each through the fallback operation matching its
original level. -/
theorem fallback_replay_order_levels (deliveryError : String)
    (messages : List SlackMessage) :
    postMessagesOnFailure deliveryError messages =
      [FallbackCall.warnCall "Error while posting to slack.",
       FallbackCall.errorCall deliveryError,
       FallbackCall.warnCall "Original messages below"] ++
        messages.map replayDispatch ∧
    ∀ m ∈ messages,
      (m.level = "Debug" → replayDispatch m = FallbackCall.debugCall m.message) ∧
      (m.level = "Info" → replayDispatch m = FallbackCall.infoCall m.message) ∧
      (m.level = "Warn" → replayDispatch m = FallbackCall.warnCall m.message) ∧
      (m.level = "Error" → replayDispatch m = FallbackCall.errorCall m.message) := by
  constructor
  · have hmap : ∀ ms : List SlackMessage, replayLoop ms = ms.map replayDispatch := by
      intro ms
      induction ms with
      | nil => rfl
      | cons x xs ih => simp [replayLoop, ih]
    simp [postMessagesOnFailure, hmap]
  · intro m _
    refine ⟨?_, ?_, ?_, ?_⟩ <;> (intro hl; simp [replayDispatch, hl])

/-- Witness for claim C3 on a one-event batch holding a Warn-level event. -/
theorem fallback_replay_order_levels_witness :
    postMessagesOnFailure "netfail" [warnProbeMessage] =
      [FallbackCall.warnCall "Error while posting to slack.",
       FallbackCall.errorCall "netfail",
       FallbackCall.warnCall "Original messages below",
       FallbackCall.warnCall "w1"] := by
  obtain ⟨h1, h2⟩ := fallback_replay_order_levels "netfail" [warnProbeMessage]
  have h3 := (h2 warnProbeMessage (by simp)).2.2.1 rfl
  rw [h1, List.map_singleton, h3]
  rfl

/-- Claim C4: getErrorMessage is total on every classified input, so a
logging call never propagates a rendering exception; when rendering succeeds
it returns the rendered message with no side-channel warning, and when
rendering itself throws, the thrown value is caught and sent to the console
warning side channel and the fixed fallback message is returned. -/
theorem error_rendering_never_raises (exp : ErrorInput) :
    (∀ s, renderOf exp = Except.ok s →
      getErrorMessage exp = { message := s, warnings := [] }) ∧
    (∀ e, renderOf exp = Except.error e →
      getErrorMessage exp =
        { message := "There was an error while attempting to log another error. Check earlier logs for a warning.",
          warnings := [e] }) := by
  constructor <;> intro x hx <;> simp [getErrorMessage, hx]

/-- Witness for claim C4 on a value whose rendering throws. -/
theorem error_rendering_never_raises_witness :
    getErrorMessage (ErrorInput.other (Except.error "boom")) =
      { message := "There was an error while attempting to log another error. Check earlier logs for a warning.",
        warnings := ["boom"] } :=
  (error_rendering_never_raises (ErrorInput.other (Except.error "boom"))).2 "boom" rfl

/-- Claim C5: the locked write section releases the mutex on every exit path,
and an append failure is caught inside the section: the error goes to the
console side channel, no file changes, and the function still returns an
ordinary state, so nothing propagates to the logging caller; on success the
line is appended under the lock. -/
theorem file_write_failure_contained (st : FileSinkState) (fileName : String)
    (line : LogLine) (appendOutcome purgeOutcome : Except String Unit) :
    (writeToLogLocked st fileName line appendOutcome purgeOutcome).lockHeld = false ∧
    (∀ e, appendOutcome = Except.error e →
      writeToLogLocked st fileName line appendOutcome purgeOutcome =
        { lockHeld := false, files := st.files,
          consoleErrors := st.consoleErrors ++ [e] }) ∧
    (appendOutcome = Except.ok () → purgeOutcome = Except.ok () →
      writeToLogLocked st fileName line appendOutcome purgeOutcome =
        { lockHeld := false, files := appendLine st.files fileName line,
          consoleErrors := st.consoleErrors }) := by
  refine ⟨?_, ?_, ?_⟩
  · cases appendOutcome <;> cases purgeOutcome <;> simp [writeToLogLocked]
  · intro e he
    subst he
    simp [writeToLogLocked]
  · intro ha hp
    subst ha
    subst hp
    simp [writeToLogLocked]

/-- Witness for claim C5 on a failing append. -/
theorem file_write_failure_contained_witness :
    writeToLogLocked { lockHeld := false, files := [], consoleErrors := [] }
        "2024-01-01T10.log" (LogLine.plainLine "x")
        (Except.error "disk full") (Except.ok ()) =
      { lockHeld := false, files := [], consoleErrors := ["disk full"] } :=
  (file_write_failure_contained
    { lockHeld := false, files := [], consoleErrors := [] } "2024-01-01T10.log"
    (LogLine.plainLine "x") (Except.error "disk full") (Except.ok ())).2.1
    "disk full" rfl

/-- Claim C7: the purge sweep body runs at most once per retention window
(skipped while lastPurgedAt is nonzero and newer than now minus the window);
a running sweep stamps lastPurgedAt with now and deletes exactly the files
whose creation time is older than now minus the window; hence a stale file is
deleted once a sweep fires at least the window after the last purge, while a
file created one day inside the window is retained. -/
theorem purge_policy_correct (d now : Int) (st : PurgeState) (hd : 1 ≤ d) :
    (st.lastPurgedAt ≠ 0 → now - retentionMs d < st.lastPurgedAt →
      purgeLogs d now st = st) ∧
    (st.lastPurgedAt = 0 ∨ st.lastPurgedAt ≤ now - retentionMs d →
      (purgeLogs d now st).lastPurgedAt = now ∧
      (purgeLogs d now st).files =
        st.files.filter (fun f => decide (¬f.2 < now - retentionMs d))) ∧
    (∀ nm b, (nm, b) ∈ st.files → b < now - retentionMs d →
      st.lastPurgedAt = 0 ∨ st.lastPurgedAt + retentionMs d ≤ now →
      (nm, b) ∉ (purgeLogs d now st).files) ∧
    (∀ nm b, (nm, b) ∈ st.files → b = now - (d - 1) * 86400000 →
      (nm, b) ∈ (purgeLogs d now st).files) := by
  refine ⟨?_, ?_, ?_, ?_⟩
  · intro h1 h2
    simp [purgeLogs, h1, h2]
  · intro hdue
    have hskip : ¬(st.lastPurgedAt ≠ 0 ∧
        st.lastPurgedAt > now - retentionMs d) := by
      rcases hdue with h | h
      · simp [h]
      · intro hcon
        omega
    simp [purgeLogs, hskip]
  · intro nm b hmem hold hdue
    have hskip : ¬(st.lastPurgedAt ≠ 0 ∧
        st.lastPurgedAt > now - retentionMs d) := by
      rcases hdue with h | h
      · simp [h]
      · intro hcon
        omega
    simp only [purgeLogs, if_neg hskip]
    intro hcon
    rw [List.mem_filter] at hcon
    have := hcon.2
    simp at this
    omega
  · intro nm b hmem hage
    by_cases hskip : st.lastPurgedAt ≠ 0 ∧ st.lastPurgedAt > now - retentionMs d
    · simp [purgeLogs, hskip, hmem]
    · simp only [purgeLogs, if_neg hskip]
      rw [List.mem_filter]
      refine ⟨hmem, ?_⟩
      simp only [decide_eq_true_eq]
      unfold retentionMs
      omega

/-- Witness for claim C7: with retention one day, no previous purge and a
file born at the epoch, a sweep at a much later instant removes the file. -/
theorem purge_policy_correct_witness :
    ("a.log", (0 : Int)) ∉
      (purgeLogs 1 200000000000
        { lastPurgedAt := 0, files := [("a.log", 0)] }).files := by
  have h := purge_policy_correct 1 200000000000
    { lastPurgedAt := 0, files := [("a.log", 0)] } (by norm_num)
  exact h.2.2.1 "a.log" 0 (by simp) (by norm_num [retentionMs]) (Or.inl rfl)

theorem totalLines_appendLine : ∀ (files : List (String × List LogLine))
    (name : String) (line : LogLine),
    ((appendLine files name line).map (fun f => f.2.length)).sum =
      (files.map (fun f => f.2.length)).sum + 1 := by
  intro files
  induction files with
  | nil => intro name line; simp [appendLine]
  | cons f rest ih =>
    intro name line
    obtain ⟨n, ls⟩ := f
    unfold appendLine
    split
    · simp
      omega
    · simp [ih]
      omega

/-- Claim C8: a debug logging call on the file sink and on the slack sink
produces no output unit when env is not dev, and exactly one output unit
(one appended file line, one buffered batch event) when env is dev; the file
append itself succeeds here. -/
theorem logDebug_dev_gate (cfgF : FileLoggerModel) (cfgS : SlackLoggerModel)
    (debug dateTime time : String) (st : FileSinkState)
    (messages : List SlackMessage) :
    totalLines (fileLogDebug cfgF debug dateTime time st
        (Except.ok ()) (Except.ok ())) =
      totalLines st + (if cfgF.env = "dev" then 1 else 0) ∧
    (slackLogDebug cfgS debug dateTime time messages).length =
      messages.length + (if cfgS.env = "dev" then 1 else 0) := by
  constructor
  · unfold fileLogDebug
    split
    · rename_i h
      simp [h, writeToLogLocked, totalLines, totalLines_appendLine]
    · rename_i h
      simp [h]
  · unfold slackLogDebug
    split
    · rename_i h
      simp [h]
    · rename_i h
      simp [h]

/-- Counterexample for claim C9: the slack sink has useJsonFormat false (its
configuration type cannot enable JSON mode), yet logInfo runs the configured
injector on the buffered event, so the buffered message is the transformed
one and not the raw one. -/
theorem injector_json_only_counterexample :
    slackInjectorProbe.useJsonFormat = false ∧
    (slackLogInfo slackInjectorProbe "x" "dt" "tm" []).map
        (fun m => m.message) = ["x!"] ∧
    ("x!" : String) ≠ "x" := by
  refine ⟨rfl, ?_, by decide⟩
  rfl

/-- Claim C9 amended: the file sink's write path and the console sink apply
the configured transform only in JSON mode (with useJsonFormat false the
emitted line is the plain prefixed text on every level, independent of the
injector, and with JSON mode on the emitted record is the injector image
applied last); the slack sink instead applies the transform to every
buffered event on all four logging paths, even though its useJsonFormat is
always false. -/
theorem injector_application_amended :
    (∀ (cfg : FileLoggerModel) (status : LogStatus)
        (message dateTime time : String),
      cfg.useJsonFormat = false →
      formatLine cfg status message dateTime time =
        LogLine.plainLine (dateTime ++ " " ++ statusText status ++ " " ++ message)) ∧
    (∀ (cfg : FileLoggerModel) (f : LogRecord → LogRecord)
        (status : LogStatus) (message dateTime time : String),
      cfg.useJsonFormat = true → cfg.logInjector = some f →
      formatLine cfg status message dateTime time =
        LogLine.jsonLine
          (f { source := cfg.source, service := cfg.service, env := cfg.env,
               level := levelName status, message := message,
               dateTime := dateTime, time := time })) ∧
    (∀ (cfg : ConsoleLoggerModel) (debug info dateTime time : String)
        (w e : ErrorInput),
      cfg.useJsonFormat = false →
      consoleLogDebug cfg debug dateTime time =
        (if cfg.env = "dev" then
          some (LogLine.plainLine
            (dateTime ++ " " ++ statusText LogStatus.debug ++ " " ++ debug))
        else none) ∧
      consoleLogInfo cfg info dateTime time =
        LogLine.plainLine
          (dateTime ++ " " ++ statusText LogStatus.info ++ " " ++ info) ∧
      consoleLogWarning cfg w dateTime time =
        LogLine.plainLine
          (dateTime ++ " " ++ statusText LogStatus.warning ++ " " ++
            (getErrorMessage w).message) ∧
      consoleLogError cfg e dateTime time =
        LogLine.plainLine
          (dateTime ++ " " ++ statusText LogStatus.error ++ " " ++
            (getErrorMessage e).message)) ∧
    (∀ (cfg : ConsoleLoggerModel) (f : LogRecord → LogRecord)
        (debug info dateTime time : String) (w e : ErrorInput),
      cfg.useJsonFormat = true → cfg.logInjector = some f →
      consoleLogDebug cfg debug dateTime time =
        (if cfg.env = "dev" then
          some (LogLine.jsonLine
            (f { source := cfg.source, service := cfg.service, env := cfg.env,
                 level := "Debug", message := debug,
                 dateTime := dateTime, time := time }))
        else none) ∧
      consoleLogInfo cfg info dateTime time =
        LogLine.jsonLine
          (f { source := cfg.source, service := cfg.service, env := cfg.env,
               level := "Info", message := info,
               dateTime := dateTime, time := time }) ∧
      consoleLogWarning cfg w dateTime time =
        LogLine.jsonLine
          (f { source := cfg.source, service := cfg.service, env := cfg.env,
               level := "Warn", message := (getErrorMessage w).message,
               dateTime := dateTime, time := time }) ∧
      consoleLogError cfg e dateTime time =
        LogLine.jsonLine
          (f { source := cfg.source, service := cfg.service, env := cfg.env,
               level := "Error", message := (getErrorMessage e).message,
               dateTime := dateTime, time := time })) ∧
    (∀ (cfg : SlackLoggerModel) (f : SlackMessage → SlackMessage)
        (debug info dateTime time : String) (w e : ErrorInput)
        (messages : List SlackMessage),
      cfg.useJsonFormat = false → cfg.logInjector = some f →
      (cfg.env = "dev" →
        slackLogDebug cfg debug dateTime time messages =
          messages ++ [f { source := cfg.source, service := cfg.service,
                           env := cfg.env, level := "Debug", message := debug,
                           dateTime := dateTime, time := time,
                           color := "#F8F8F8" }]) ∧
      (cfg.includeInfo = true →
        cfg.logFilter { source := cfg.source, service := cfg.service,
                        env := cfg.env, level := "Info", message := info,
                        dateTime := dateTime, time := time } = true →
        slackLogInfo cfg info dateTime time messages =
          messages ++ [f { source := cfg.source, service := cfg.service,
                           env := cfg.env, level := "Info", message := info,
                           dateTime := dateTime, time := time,
                           color := "#259D2F" }]) ∧
      (cfg.includeWarn = true →
        cfg.logFilter { source := cfg.source, service := cfg.service,
                        env := cfg.env, level := "Warn",
                        message := (getErrorMessage w).message,
                        dateTime := dateTime, time := time } = true →
        slackLogWarning cfg w dateTime time messages =
          messages ++ [f { source := cfg.source, service := cfg.service,
                           env := cfg.env, level := "Warn",
                           message := (getErrorMessage w).message,
                           dateTime := dateTime, time := time,
                           color := "#F1AB2A" }]) ∧
      (cfg.includeError = true →
        cfg.logFilter { source := cfg.source, service := cfg.service,
                        env := cfg.env, level := "Error",
                        message := (getErrorMessage e).message,
                        dateTime := dateTime, time := time } = true →
        slackLogError cfg e dateTime time messages =
          messages ++ [f { source := cfg.source, service := cfg.service,
                           env := cfg.env, level := "Error",
                           message := (getErrorMessage e).message,
                           dateTime := dateTime, time := time,
                           color := "#EF401D" }])) := by
  refine ⟨?_, ?_, ?_, ?_, ?_⟩
  · intro cfg status message dateTime time hjson
    simp [formatLine, hjson]
  · intro cfg f status message dateTime time hjson hinj
    simp [formatLine, hjson, hinj]
  · intro cfg debug info dateTime time w e hjson
    refine ⟨?_, ?_, ?_, ?_⟩ <;>
      simp [consoleLogDebug, consoleLogInfo, consoleLogWarning,
        consoleLogError, hjson]
  · intro cfg f debug info dateTime time w e hjson hinj
    refine ⟨?_, ?_, ?_, ?_⟩ <;>
      simp [consoleLogDebug, consoleLogInfo, consoleLogWarning,
        consoleLogError, hjson, hinj]
  · intro cfg f debug info dateTime time w e messages _ hinj
    refine ⟨?_, ?_, ?_, ?_⟩
    · intro hdev
      simp [slackLogDebug, hdev, hinj]
    · intro hinc hfil
      simp [slackLogInfo, hinc, hfil, hinj]
    · intro hinc hfil
      simp [slackLogWarning, hinc, hfil, hinj]
    · intro hinc hfil
      simp [slackLogError, hinc, hfil, hinj]

/-- Witness for the amended claim C9: the probe configuration buffers the
transformed event while JSON mode is off. -/
theorem injector_application_amended_witness :
    slackLogInfo slackInjectorProbe "x" "dt" "tm" [] =
      [{ source := "nodejs", service := "svc", env := "prod", level := "Info",
         message := "x!", dateTime := "dt", time := "tm",
         color := "#259D2F" }] := by
  have h := (injector_application_amended.2.2.2.2 slackInjectorProbe
    (fun m => { m with message := m.message ++ "!" }) "d" "x" "dt" "tm"
    (ErrorInput.other (Except.ok "")) (ErrorInput.other (Except.ok "")) []
    rfl rfl).2.1 rfl rfl
  rw [h]
  rfl

/-- Claim C10: with no configured environment BaseLogger resolves env to the
literal dev, and lower-cases a configured value; consequently a sink built in
an unconfigured process has its debug gate open: logDebug produces its one
output unit by default on both the file sink and the slack sink. -/
theorem default_env_dev_debug_active :
    resolveEnv none = "dev" ∧
    (∀ s, resolveEnv (some s) = s.toLower) ∧
    (∀ (cfg : FileLoggerModel) (debug dateTime time : String)
        (st : FileSinkState),
      cfg.env = resolveEnv none →
      totalLines (fileLogDebug cfg debug dateTime time st
          (Except.ok ()) (Except.ok ())) = totalLines st + 1) ∧
    (∀ (cfg : SlackLoggerModel) (debug dateTime time : String)
        (messages : List SlackMessage),
      cfg.env = resolveEnv none →
      (slackLogDebug cfg debug dateTime time messages).length =
        messages.length + 1) := by
  refine ⟨rfl, fun s => rfl, ?_, ?_⟩
  · intro cfg debug dateTime time st henv
    have hdev : cfg.env = "dev" := henv
    simp [fileLogDebug, hdev, writeToLogLocked, totalLines, totalLines_appendLine]
  · intro cfg debug dateTime time messages henv
    have hdev : cfg.env = "dev" := henv
    simp [slackLogDebug, hdev]

/-- Witness for claim C10: a slack sink whose env came from the unconfigured
default buffers the debug event. -/
theorem default_env_dev_debug_active_witness :
    (slackLogDebug
        { source := "nodejs", service := "svc", env := "dev",
          useJsonFormat := false, includeInfo := true, includeWarn := true,
          includeError := true, logFilter := fun _ => true,
          logInjector := none } "d" "dt" "tm" []).length = 0 + 1 :=
  default_env_dev_debug_active.2.2.2
    { source := "nodejs", service := "svc", env := "dev",
      useJsonFormat := false, includeInfo := true, includeWarn := true,
      includeError := true, logFilter := fun _ => true, logInjector := none }
    "d" "dt" "tm" [] rfl

end NLog
